import Mathlib

set_option maxHeartbeats 1000000

namespace LoanApp

/-! Shallow embedding of the loan-prediction app (src/app.py).

The form widgets (lines 54-70) fix the input domain: selectbox options
become inductive types, number inputs become rationals, the tenure slider
becomes a natural number.  The feature dictionary `input_data`
(lines 78-94) becomes `inputData`, the reindex of line 96 becomes
`reindexRow`, and the feedback-log CSV paths (lines 141-179) are modelled
character-exactly further below. -/

/-- Options of the Gender selectbox (app.py line 57). -/
inductive Gender | male | female
  deriving DecidableEq

/-- Options of the Married selectbox (app.py line 58). -/
inductive Married | yes | no
  deriving DecidableEq

/-- Options of the Dependents selectbox (app.py line 59). -/
inductive Dependents | d0 | d1 | d2 | d3plus
  deriving DecidableEq

/-- Options of the Credit Record selectbox (app.py line 63). -/
inductive Credit | good | poor
  deriving DecidableEq

/-- Options of the Area selectbox (app.py line 68). -/
inductive Area | urban | semiurban | rural
  deriving DecidableEq

/-- Options of the Education selectbox (app.py line 69). -/
inductive Education | graduate | notGraduate
  deriving DecidableEq

/-- Options of the Self Employed selectbox (app.py line 70). -/
inductive SelfEmployed | yes | no
  deriving DecidableEq

/-- One submission's raw form fields (app.py lines 56-70). -/
structure ApplicantInput where
  userName : String
  gender : Gender
  married : Married
  dependents : Dependents
  income : ℚ
  coIncome : ℚ
  creditHistory : Credit
  loanPkr : ℚ
  term : ℕ
  propertyArea : Area
  education : Education
  selfEmp : SelfEmployed

/-- Widget constraints: number-input minima (lines 61, 62, 66) and the
tenure slider range (line 67). -/
def ValidInput (a : ApplicantInput) : Prop :=
  0 ≤ a.income ∧ 0 ≤ a.coIncome ∧ 10000 ≤ a.loanPkr ∧ 1 ≤ a.term ∧ a.term ≤ 30

/-- ch_val = 1.0 if credit_history == "Good" else 0.0 (app.py line 64). -/
def chVal (c : Credit) : ℚ := if c = Credit.good then 1 else 0

/-- The feature row built by the dictionary `input_data`
(app.py lines 81-94), one named field per dictionary key.  Exact
rational fields stay in ℚ; the three log1p fields live in ℝ. -/
structure FeatureRow where
  applicantIncome : ℚ
  coapplicantIncome : ℚ
  loanAmount : ℚ
  loanAmountTerm : ℚ
  creditHistory : ℚ
  totalIncome : ℚ
  incomeToLoan : ℚ
  logApplicantIncome : ℝ
  logLoanAmount : ℝ
  logTotalIncome : ℝ
  genderMale : ℚ
  marriedYes : ℚ
  educationNotGraduate : ℚ
  selfEmployedYes : ℚ
  propertyAreaSemiurban : ℚ
  propertyAreaUrban : ℚ
  dependents1 : ℚ
  dependents2 : ℚ
  dependents3plus : ℚ

/-- np.log1p. -/
noncomputable def log1p (x : ℝ) : ℝ := Real.log (1 + x)

/-- The feature transform: loan_scaled = loan_pkr / 1000 and
total_income = income + co_income (app.py lines 78-79) feeding the
`input_data` dictionary (lines 81-94), key by key. -/
noncomputable def inputData (a : ApplicantInput) : FeatureRow :=
  { applicantIncome := a.income,
    coapplicantIncome := a.coIncome,
    loanAmount := a.loanPkr / 1000,
    loanAmountTerm := (a.term : ℚ) * 12,
    creditHistory := chVal a.creditHistory,
    totalIncome := a.income + a.coIncome,
    incomeToLoan := (a.income + a.coIncome) / (a.loanPkr + 1),
    logApplicantIncome := log1p ((a.income : ℝ)),
    logLoanAmount := log1p (((a.loanPkr / 1000 : ℚ) : ℝ)),
    logTotalIncome := log1p (((a.income + a.coIncome : ℚ) : ℝ)),
    genderMale := if a.gender = Gender.male then 1 else 0,
    marriedYes := if a.married = Married.yes then 1 else 0,
    educationNotGraduate := if a.education = Education.notGraduate then 1 else 0,
    selfEmployedYes := if a.selfEmp = SelfEmployed.yes then 1 else 0,
    propertyAreaSemiurban := if a.propertyArea = Area.semiurban then 1 else 0,
    propertyAreaUrban := if a.propertyArea = Area.urban then 1 else 0,
    dependents1 := if a.dependents = Dependents.d1 then 1 else 0,
    dependents2 := if a.dependents = Dependents.d2 then 1 else 0,
    dependents3plus := if a.dependents = Dependents.d3plus then 1 else 0 }

/-- The spec's scenario input: income 75000, co-income 0, loan 500000,
term 15 years, credit Good, every categorical widget at its default
(first option): gender Male, married Yes, dependents 0, area Urban,
education Graduate, self-employed Yes. -/
def demoInput : ApplicantInput :=
  { userName := "Ali",
    gender := Gender.male,
    married := Married.yes,
    dependents := Dependents.d0,
    income := 75000,
    coIncome := 0,
    creditHistory := Credit.good,
    loanPkr := 500000,
    term := 15,
    propertyArea := Area.urban,
    education := Education.graduate,
    selfEmp := SelfEmployed.yes }

/-- Lower numeric bound for the scenario's log1p value:
exp 1 ^ 1122 < 75001 ^ 100, via the decimal upper bound on e. -/
theorem log_75001_gt : (11.22 : ℝ) < Real.log 75001 := by
  have hb : (2.7182818286 : ℝ) ^ (1122 : ℕ) < (75001 : ℝ) ^ (100 : ℕ) := by
    norm_num
  have he : (Real.exp 1) ^ (1122 : ℕ) < (2.7182818286 : ℝ) ^ (1122 : ℕ) := by
    apply pow_lt_pow_left₀ Real.exp_one_lt_d9 (Real.exp_pos 1).le
    norm_num
  have h3 : Real.log ((Real.exp 1) ^ (1122 : ℕ)) < Real.log ((75001 : ℝ) ^ (100 : ℕ)) :=
    Real.log_lt_log (by positivity) (he.trans hb)
  rw [Real.log_pow, Real.log_pow, Real.log_exp] at h3
  push_cast at h3
  linarith

/-- Upper numeric bound for the scenario's log1p value:
75001 ^ 100 < exp 1 ^ 1123, via the decimal lower bound on e. -/
theorem log_75001_lt : Real.log 75001 < (11.23 : ℝ) := by
  have hb : (75001 : ℝ) ^ (100 : ℕ) < (2.7182818283 : ℝ) ^ (1123 : ℕ) := by
    norm_num
  have he : (2.7182818283 : ℝ) ^ (1123 : ℕ) < (Real.exp 1) ^ (1123 : ℕ) := by
    apply pow_lt_pow_left₀ Real.exp_one_gt_d9 (by norm_num)
    norm_num
  have h3 : Real.log ((75001 : ℝ) ^ (100 : ℕ)) < Real.log ((Real.exp 1) ^ (1123 : ℕ)) :=
    Real.log_lt_log (by positivity) (hb.trans he)
  rw [Real.log_pow, Real.log_pow, Real.log_exp] at h3
  push_cast at h3
  linarith

/-- C1: the transform computes total income = income + co-income, scaled
loan = loan / 1000, income-to-loan ratio = total income / (raw loan + 1),
and log1p of income, scaled loan and total income; on the scenario input
(income 75000, co-income 0, loan 500000, credit Good) the row has scaled
loan 500, total income 75000, ratio 75000 / 500001, Credit_History 1, and
log1p 75000 strictly between 11.22 and 11.23 (so ≈ 11.2252). -/
theorem c1_feature_transform :
    (∀ a : ApplicantInput,
      (inputData a).totalIncome = a.income + a.coIncome ∧
      (inputData a).loanAmount = a.loanPkr / 1000 ∧
      (inputData a).incomeToLoan = (a.income + a.coIncome) / (a.loanPkr + 1) ∧
      (inputData a).logApplicantIncome = log1p ((a.income : ℝ)) ∧
      (inputData a).logLoanAmount = log1p (((a.loanPkr : ℝ)) / 1000) ∧
      (inputData a).logTotalIncome = log1p ((a.income : ℝ) + (a.coIncome : ℝ))) ∧
    ((inputData demoInput).loanAmount = 500 ∧
      (inputData demoInput).totalIncome = 75000 ∧
      (inputData demoInput).incomeToLoan = 75000 / 500001 ∧
      (inputData demoInput).creditHistory = 1 ∧
      (11.22 : ℝ) < (inputData demoInput).logApplicantIncome ∧
      (inputData demoInput).logApplicantIncome < (11.23 : ℝ)) := by
  constructor
  · intro a
    refine ⟨rfl, rfl, rfl, rfl, ?_, ?_⟩
    · show log1p (((a.loanPkr / 1000 : ℚ) : ℝ)) = _
      push_cast
      ring_nf
    · show log1p (((a.income + a.coIncome : ℚ) : ℝ)) = _
      push_cast
      ring_nf
  · have hlog : (inputData demoInput).logApplicantIncome = Real.log 75001 := by
      show log1p (((75000 : ℚ) : ℝ)) = _
      rw [log1p]
      norm_num
    refine ⟨by norm_num [inputData, demoInput], by norm_num [inputData, demoInput],
      by norm_num [inputData, demoInput], by norm_num [inputData, demoInput, chVal],
      ?_, ?_⟩
    · rw [hlog]; exact log_75001_gt
    · rw [hlog]; exact log_75001_lt

/-- The 19 keys of the `input_data` dictionary in source order
(app.py lines 81-94). -/
def inputCols : List String :=
  ["ApplicantIncome", "CoapplicantIncome", "LoanAmount", "Loan_Amount_Term",
   "Credit_History", "TotalIncome", "Income_to_Loan", "log_ApplicantIncome",
   "log_LoanAmount", "log_TotalIncome", "Gender_Male", "Married_Yes",
   "Education_Not Graduate", "Self_Employed_Yes", "Property_Area_Semiurban",
   "Property_Area_Urban", "Dependents_1", "Dependents_2", "Dependents_3+"]

/-- The `input_data` dictionary as the name-to-value row that
`pd.DataFrame([input_data])` builds (app.py line 96), keys in source
order, every value read as a real number. -/
noncomputable def FeatureRow.toPairs (r : FeatureRow) : List (String × ℝ) :=
  [("ApplicantIncome", (r.applicantIncome : ℝ)),
   ("CoapplicantIncome", (r.coapplicantIncome : ℝ)),
   ("LoanAmount", (r.loanAmount : ℝ)),
   ("Loan_Amount_Term", (r.loanAmountTerm : ℝ)),
   ("Credit_History", (r.creditHistory : ℝ)),
   ("TotalIncome", (r.totalIncome : ℝ)),
   ("Income_to_Loan", (r.incomeToLoan : ℝ)),
   ("log_ApplicantIncome", r.logApplicantIncome),
   ("log_LoanAmount", r.logLoanAmount),
   ("log_TotalIncome", r.logTotalIncome),
   ("Gender_Male", (r.genderMale : ℝ)),
   ("Married_Yes", (r.marriedYes : ℝ)),
   ("Education_Not Graduate", (r.educationNotGraduate : ℝ)),
   ("Self_Employed_Yes", (r.selfEmployedYes : ℝ)),
   ("Property_Area_Semiurban", (r.propertyAreaSemiurban : ℝ)),
   ("Property_Area_Urban", (r.propertyAreaUrban : ℝ)),
   ("Dependents_1", (r.dependents1 : ℝ)),
   ("Dependents_2", (r.dependents2 : ℝ)),
   ("Dependents_3+", (r.dependents3plus : ℝ))]

theorem toPairs_keys (r : FeatureRow) : r.toPairs.map Prod.fst = inputCols := rfl

/-- Column lookup in a single-row frame. -/
def lookupCol (pairs : List (String × ℝ)) (c : String) : Option ℝ :=
  (pairs.find? (fun p => p.fst == c)).map Prod.snd

/-- pandas `DataFrame.reindex(columns=cols, fill_value=0)` on a one-row
frame (app.py line 96): the result has exactly the columns `cols`, each
taking the row's value when the column exists and 0 otherwise. -/
def reindexRow (pairs : List (String × ℝ)) (cols : List String) : List (String × ℝ) :=
  cols.map (fun c => (c, (lookupCol pairs c).getD 0))

/-- Python str.startswith on the underlying character lists. -/
def pyStartsWith (s pre : String) : Bool :=
  List.isPrefixOf pre.toList s.toList

/-- feature_cols from load_assets (app.py line 40): all schema columns
whose name does not start with "Loan_Status". -/
def featureColsOf (allCols : List String) : List String :=
  allCols.filter (fun c => !(pyStartsWith c "Loan_Status"))

/-- Reindexing keeps exactly the requested columns, in order. -/
theorem reindexRow_keys (pairs : List (String × ℝ)) (cols : List String) :
    (reindexRow pairs cols).map Prod.fst = cols := by
  induction cols with
  | nil => rfl
  | cons c t ih =>
    simp only [reindexRow, List.map_cons] at ih ⊢
    rw [ih]

/-- input_df (app.py line 96): the transformed row reindexed against the
schema column list. -/
noncomputable def inputDf (a : ApplicantInput) (cols : List String) : List (String × ℝ) :=
  reindexRow (FeatureRow.toPairs (inputData a)) cols

/-- C2: for any applicant input and any startup schema, the reindexed
feature row has exactly the schema's (non-target) columns — nothing
missing, nothing extra — each with a defined value, and a schema column
the transform did not produce is filled with 0. -/
theorem c2_reindex_schema (a : ApplicantInput) (allCols : List String) :
    ((inputDf a (featureColsOf allCols)).map Prod.fst = featureColsOf allCols) ∧
    (∀ c ∈ featureColsOf allCols, ∃ v : ℝ, (c, v) ∈ inputDf a (featureColsOf allCols)) ∧
    (∀ c ∈ featureColsOf allCols, c ∉ inputCols →
      (c, (0 : ℝ)) ∈ inputDf a (featureColsOf allCols)) ∧
    (∀ p ∈ inputDf a (featureColsOf allCols), p.fst ∈ featureColsOf allCols) := by
  refine ⟨?_, ?_, ?_, ?_⟩
  · exact reindexRow_keys _ _
  · intro c hc
    exact ⟨(lookupCol (FeatureRow.toPairs (inputData a)) c).getD 0,
      List.mem_map.mpr ⟨c, hc, rfl⟩⟩
  · intro c hc hnot
    have hnone : lookupCol (FeatureRow.toPairs (inputData a)) c = none := by
      have : (FeatureRow.toPairs (inputData a)).find? (fun p => p.fst == c) = none := by
        rw [List.find?_eq_none]
        intro p hp hbeq
        apply hnot
        rw [← toPairs_keys (inputData a)]
        have : p.fst = c := by simpa using hbeq
        rw [← this]
        exact List.mem_map.mpr ⟨p, hp, rfl⟩
      simp [lookupCol, this]
    have : ((c, (lookupCol (FeatureRow.toPairs (inputData a)) c).getD 0) : String × ℝ)
        ∈ inputDf a (featureColsOf allCols) := List.mem_map.mpr ⟨c, hc, rfl⟩
    rwa [hnone] at this
  · intro p hp
    obtain ⟨c, hc, rfl⟩ := List.mem_map.mp hp
    exact hc

/-- Witness for C2 at the scenario input and a tiny schema: the target
column is filtered away, the unknown column "Extra_Col" is zero-filled,
and the output columns are exactly the schema. -/
theorem c2_reindex_schema_witness :
    ((inputDf demoInput (featureColsOf ["Loan_Status", "ApplicantIncome", "Extra_Col"])).map
        Prod.fst = ["ApplicantIncome", "Extra_Col"]) ∧
    (("Extra_Col", (0 : ℝ)) ∈
        inputDf demoInput (featureColsOf ["Loan_Status", "ApplicantIncome", "Extra_Col"])) := by
  have h := c2_reindex_schema demoInput ["Loan_Status", "ApplicantIncome", "Extra_Col"]
  have hcols : featureColsOf ["Loan_Status", "ApplicantIncome", "Extra_Col"] =
      ["ApplicantIncome", "Extra_Col"] := by decide
  refine ⟨by rw [h.1, hcols], ?_⟩
  exact h.2.2.1 "Extra_Col" (by rw [hcols]; decide) (by decide)

/-- C3: within each one-hot group at most one indicator is 1, and all
indicators of a group vanish exactly on the group's reference level
(Rural area, 0 dependents, Female, unmarried, Graduate, not
self-employed). -/
theorem c3_one_hot_groups (a : ApplicantInput) :
    (((inputData a).propertyAreaSemiurban = 1 ∧ (inputData a).propertyAreaUrban = 0) ∨
      ((inputData a).propertyAreaSemiurban = 0 ∧ (inputData a).propertyAreaUrban = 1) ∨
      ((inputData a).propertyAreaSemiurban = 0 ∧ (inputData a).propertyAreaUrban = 0)) ∧
    (((inputData a).propertyAreaSemiurban = 0 ∧ (inputData a).propertyAreaUrban = 0) ↔
      a.propertyArea = Area.rural) ∧
    (((inputData a).dependents1 = 1 ∧ (inputData a).dependents2 = 0 ∧
        (inputData a).dependents3plus = 0) ∨
      ((inputData a).dependents1 = 0 ∧ (inputData a).dependents2 = 1 ∧
        (inputData a).dependents3plus = 0) ∨
      ((inputData a).dependents1 = 0 ∧ (inputData a).dependents2 = 0 ∧
        (inputData a).dependents3plus = 1) ∨
      ((inputData a).dependents1 = 0 ∧ (inputData a).dependents2 = 0 ∧
        (inputData a).dependents3plus = 0)) ∧
    (((inputData a).dependents1 = 0 ∧ (inputData a).dependents2 = 0 ∧
        (inputData a).dependents3plus = 0) ↔ a.dependents = Dependents.d0) ∧
    ((inputData a).genderMale = 0 ↔ a.gender = Gender.female) ∧
    ((inputData a).marriedYes = 0 ↔ a.married = Married.no) ∧
    ((inputData a).educationNotGraduate = 0 ↔ a.education = Education.graduate) ∧
    ((inputData a).selfEmployedYes = 0 ↔ a.selfEmp = SelfEmployed.no) := by
  obtain ⟨un, g, m, d, inc, ci, ch, lp, t, pa, ed, se⟩ := a
  refine ⟨?_, ?_, ?_, ?_, ?_, ?_, ?_, ?_⟩
  · cases pa <;> simp [inputData]
  · cases pa <;> simp [inputData]
  · cases d <;> simp [inputData]
  · cases d <;> simp [inputData]
  · cases g <;> simp [inputData]
  · cases m <;> simp [inputData]
  · cases ed <;> simp [inputData]
  · cases se <;> simp [inputData]

/-- Witness for C3 at the scenario input: the Urban indicator is set, the
Semiurban one is not, and the dependents indicators all vanish because
the input sits at the reference level 0. -/
theorem c3_one_hot_groups_witness :
    ((inputData demoInput).dependents1 = 0 ∧ (inputData demoInput).dependents2 = 0 ∧
      (inputData demoInput).dependents3plus = 0) ∧
    ¬((inputData demoInput).propertyAreaSemiurban = 0 ∧
      (inputData demoInput).propertyAreaUrban = 0) := by
  have h := c3_one_hot_groups demoInput
  refine ⟨h.2.2.2.1.mpr rfl, ?_⟩
  intro hz
  have : demoInput.propertyArea = Area.rural := h.2.1.mp hz
  simp [demoInput] at this

/-- The loaded classifier artifact (app.py lines 38, 99-100): opaque
predict and predict_proba operations over the reindexed row, the latter
returning the class-0 and class-1 probabilities. -/
structure SkModel where
  predict : List (String × ℝ) → ℕ
  proba : List (String × ℝ) → ℝ × ℝ

/-- A predict_proba output is a probability vector over the two classes. -/
def probsValid (m : SkModel) (row : List (String × ℝ)) : Prop :=
  0 ≤ (m.proba row).1 ∧ 0 ≤ (m.proba row).2 ∧ (m.proba row).1 + (m.proba row).2 = 1

/-- confidence = probs[1] if prediction == 1 else probs[0]
(app.py lines 99-101). -/
def confidence (m : SkModel) (row : List (String × ℝ)) : ℝ :=
  if m.predict row = 1 then (m.proba row).2 else (m.proba row).1

/-- A concrete two-class model used to exhibit that confidence varies
with the input. -/
noncomputable def demoModel : SkModel :=
  { predict := fun _ => 0,
    proba := fun row =>
      (((lookupCol row "ApplicantIncome").getD 0) / 100000,
        1 - ((lookupCol row "ApplicantIncome").getD 0) / 100000) }

/-- C4: the reported confidence is the class-probability entry selected
by the predicted label, it lies in [0, 1] whenever predict_proba returns
a probability vector, and it is not one fixed constant: two applicant
inputs already give different confidences under a single model. -/
theorem c4_confidence :
    (∀ (m : SkModel) (row : List (String × ℝ)),
      confidence m row =
        if m.predict row = 1 then (m.proba row).2 else (m.proba row).1) ∧
    (∀ (m : SkModel) (row : List (String × ℝ)), probsValid m row →
      0 ≤ confidence m row ∧ confidence m row ≤ 1) ∧
    (∃ (m : SkModel) (a b : ApplicantInput) (cols : List String),
      confidence m (inputDf a cols) ≠ confidence m (inputDf b cols)) := by
  refine ⟨fun m row => rfl, ?_, ?_⟩
  · intro m row hv
    obtain ⟨h0, h1, hsum⟩ := hv
    unfold confidence
    split <;> constructor <;> linarith
  · refine ⟨demoModel, demoInput, { demoInput with income := 10000 },
      ["ApplicantIncome"], ?_⟩
    have ha : confidence demoModel (inputDf demoInput ["ApplicantIncome"]) =
        ((75000 : ℚ) : ℝ) / 100000 := by
      simp [confidence, demoModel, inputDf, reindexRow, lookupCol,
        FeatureRow.toPairs, inputData, demoInput]
    have hb : confidence demoModel
        (inputDf { demoInput with income := 10000 } ["ApplicantIncome"]) =
        ((10000 : ℚ) : ℝ) / 100000 := by
      simp [confidence, demoModel, inputDf, reindexRow, lookupCol,
        FeatureRow.toPairs, inputData, demoInput]
    rw [ha, hb]
    norm_num

/-- Witness for C4 on a concrete valid probability vector: the bounds
conjunct applied to a model answering (0.3, 0.7). -/
theorem c4_confidence_witness :
    0 ≤ confidence ⟨fun _ => 1, fun _ => ((3 : ℝ) / 10, (7 : ℝ) / 10)⟩ [] ∧
    confidence ⟨fun _ => 1, fun _ => ((3 : ℝ) / 10, (7 : ℝ) / 10)⟩ [] ≤ 1 := by
  refine c4_confidence.2.1 ⟨fun _ => 1, fun _ => ((3 : ℝ) / 10, (7 : ℝ) / 10)⟩ []
    ⟨by norm_num, by norm_num, by norm_num⟩

/-- C10: the Loan_Amount_Term feature is the tenure input in years times
12 (app.py line 83 converts the slider's years to months), for every
tenure in the slider range 1-30. -/
theorem c10_term_months (a : ApplicantInput) (_h1 : 1 ≤ a.term) (_h2 : a.term ≤ 30) :
    (inputData a).loanAmountTerm = (a.term : ℚ) * 12 := rfl

/-- Witness for C10 at the scenario input: 15 years becomes 180 months. -/
theorem c10_term_months_witness :
    (inputData demoInput).loanAmountTerm = 180 := by
  have h := c10_term_months demoInput (by norm_num [demoInput]) (by norm_num [demoInput])
  rw [h]
  norm_num [demoInput]

/-! CSV layer.  The feedback log is written with
`to_csv(..., quoting=csv.QUOTE_NONNUMERIC)` (app.py lines 147, 149, 177)
and read back with `pd.read_csv(engine='python', on_bad_lines='skip')`
(line 169).  We model the file as a character list: numeric cells are
written verbatim, string cells are wrapped in double quotes with inner
quotes doubled; reading splits on unquoted newlines, then unquoted
commas, then strips the quoting. -/

/-- A character that needs no quoting: not a comma, quote or newline. -/
def isPlainChar (c : Char) : Bool := !(c == ',' || c == '"' || c == '\n')

theorem isPlainChar_spec (c : Char) :
    isPlainChar c = true ↔ (c ≠ ',' ∧ c ≠ '"' ∧ c ≠ '\n') := by
  simp [isPlainChar, not_or, and_assoc]

/-- One CSV cell as the writer sees it: a string cell (quoted on output)
or a numeric cell (written unquoted). -/
inductive CsvField
  | text : List Char → CsvField
  | num : List Char → CsvField
  deriving DecidableEq

/-- A numeric cell must render without delimiter characters; string
cells are always safe because they get quoted. -/
def CsvField.isPlain : CsvField → Bool
  | .text _ => true
  | .num s => s.all isPlainChar

/-- The logical content of a cell, i.e. what a reader recovers. -/
def CsvField.content : CsvField → List Char
  | .text s => s
  | .num s => s

/-- Double every quote character (csv writer escaping). -/
def escQuote : List Char → List Char
  | [] => []
  | c :: t => if c = '"' then '"' :: '"' :: escQuote t else c :: escQuote t

/-- Serialize one cell: QUOTE_NONNUMERIC quotes string cells and leaves
numeric cells bare. -/
def CsvField.render : CsvField → List Char
  | .text s => '"' :: (escQuote s ++ ['"'])
  | .num s => s

/-- Serialize one record: cells joined by commas. -/
def renderRecord : List CsvField → List Char
  | [] => []
  | [f] => f.render
  | f :: g :: t => f.render ++ ',' :: renderRecord (g :: t)

/-- Serialize a record sequence: each record is terminated by a
newline, as pandas to_csv does. -/
def writeCsv : List (List CsvField) → List Char
  | [] => []
  | r :: rs => renderRecord r ++ '\n' :: writeCsv rs

/-- Quote-aware splitter: cut at every unquoted `sep`, toggling the
in-quotes flag at each quote character.  `ke` tells whether a trailing
empty chunk is kept (fields) or dropped (the final newline of a file). -/
def splitSepAux (sep : Char) (ke : Bool) : List Char → Bool → List Char → List (List Char)
  | [], _, acc => if ke || !acc.isEmpty then [acc.reverse] else []
  | c :: t, q, acc =>
    if c = '"' then splitSepAux sep ke t (!q) (c :: acc)
    else if c = sep ∧ q = false then acc.reverse :: splitSepAux sep ke t false []
    else splitSepAux sep ke t q (c :: acc)

/-- Split file content into records at unquoted newlines. -/
def splitLines (s : List Char) : List (List Char) := splitSepAux '\n' false s false []

/-- Split one record into raw fields at unquoted commas. -/
def splitFields (s : List Char) : List (List Char) := splitSepAux ',' true s false []

/-- Collapse doubled quotes (csv reader unescaping). -/
def unescQuote : List Char → List Char
  | [] => []
  | [a] => [a]
  | a :: b :: t =>
    if a = '"' then
      if b = '"' then '"' :: unescQuote t else a :: unescQuote (b :: t)
    else a :: unescQuote (b :: t)

theorem unescQuote_cons_ne (c : Char) (t : List Char) (hc : c ≠ '"') :
    unescQuote (c :: t) = c :: unescQuote t := by
  cases t <;> simp [unescQuote, hc]

theorem unescQuote_pair (t : List Char) :
    unescQuote ('"' :: '"' :: t) = '"' :: unescQuote t := by
  simp [unescQuote]

/-- Strip the surrounding quotes of a quoted raw field and unescape its
inside; leave unquoted fields untouched. -/
def unquoteField (f : List Char) : List Char :=
  if 2 ≤ f.length ∧ f.head? = some '"' ∧ f.getLast? = some '"' then
    unescQuote (f.drop 1).dropLast
  else f

/-- Parse file content into records of field values. -/
def parseCsv (content : List Char) : List (List (List Char)) :=
  (splitLines content).map (fun line => (splitFields line).map unquoteField)

theorem splitSepAux_nil (sep : Char) (ke : Bool) (q : Bool) (acc : List Char) :
    splitSepAux sep ke [] q acc = if ke || !acc.isEmpty then [acc.reverse] else [] := rfl

theorem splitSepAux_quote (sep : Char) (ke : Bool) (t : List Char) (q : Bool)
    (acc : List Char) :
    splitSepAux sep ke ('"' :: t) q acc = splitSepAux sep ke t (!q) ('"' :: acc) := by
  simp [splitSepAux]

theorem splitSepAux_sep (sep : Char) (hsep : sep ≠ '"') (ke : Bool) (t : List Char)
    (acc : List Char) :
    splitSepAux sep ke (sep :: t) false acc =
      acc.reverse :: splitSepAux sep ke t false [] := by
  simp [splitSepAux, hsep]

theorem splitSepAux_other (sep : Char) (ke : Bool) (c : Char) (t : List Char) (q : Bool)
    (acc : List Char) (h1 : c ≠ '"') (h2 : ¬(c = sep ∧ q = false)) :
    splitSepAux sep ke (c :: t) q acc = splitSepAux sep ke t q (c :: acc) := by
  simp [splitSepAux, h1, h2]

/-- Inside quotes, escaped content passes straight into the accumulator. -/
theorem splitSepAux_escQuote (sep : Char) (ke : Bool) (s : List Char) :
    ∀ (rest acc : List Char),
      splitSepAux sep ke (escQuote s ++ rest) true acc =
        splitSepAux sep ke rest true ((escQuote s).reverse ++ acc) := by
  induction s with
  | nil => intro rest acc; simp [escQuote]
  | cons c t ih =>
    intro rest acc
    by_cases hc : c = '"'
    · subst hc
      rw [show escQuote ('"' :: t) = '"' :: '"' :: escQuote t from by simp [escQuote]]
      rw [List.cons_append, List.cons_append, splitSepAux_quote]
      simp only [Bool.not_true]
      rw [splitSepAux_quote]
      simp only [Bool.not_false]
      rw [ih]
      simp
    · rw [show escQuote (c :: t) = c :: escQuote t from by simp [escQuote, hc]]
      rw [List.cons_append,
        splitSepAux_other sep ke c _ true acc hc (by simp)]
      rw [ih]
      simp

/-- A whole quoted field moves from the input to the accumulator without
producing a cut, returning to the unquoted state. -/
theorem splitSepAux_quoted (sep : Char) (ke : Bool) (s rest acc : List Char) :
    splitSepAux sep ke (('"' :: (escQuote s ++ ['"'])) ++ rest) false acc =
      splitSepAux sep ke rest false (('"' :: (escQuote s ++ ['"'])).reverse ++ acc) := by
  rw [List.cons_append, splitSepAux_quote]
  simp only [Bool.not_false]
  rw [List.append_assoc, splitSepAux_escQuote]
  rw [show (['"'] ++ rest : List Char) = '"' :: rest from rfl]
  rw [splitSepAux_quote]
  simp only [Bool.not_true]
  congr 1
  simp

/-- A run of plain characters moves into the accumulator. -/
theorem splitSepAux_plain (sep : Char) (ke : Bool) (s : List Char)
    (h : ∀ c ∈ s, c ≠ '"' ∧ c ≠ sep) :
    ∀ (rest acc : List Char),
      splitSepAux sep ke (s ++ rest) false acc =
        splitSepAux sep ke rest false (s.reverse ++ acc) := by
  induction s with
  | nil => intro rest acc; simp
  | cons c t ih =>
    intro rest acc
    have hc := h c (List.mem_cons_self c t)
    rw [List.cons_append,
      splitSepAux_other sep ke c _ false acc hc.1 (by rintro ⟨hcs, -⟩; exact hc.2 hcs)]
    rw [ih (fun d hd => h d (List.mem_cons_of_mem c hd))]
    simp

/-- Any rendered cell (plain numeric or quoted text) moves into the
accumulator when the separator is a comma or newline. -/
theorem splitSepAux_field (sep : Char) (ke : Bool) (f : CsvField) (rest acc : List Char)
    (hf : f.isPlain = true) (hsep : sep = ',' ∨ sep = '\n') :
    splitSepAux sep ke (f.render ++ rest) false acc =
      splitSepAux sep ke rest false (f.render.reverse ++ acc) := by
  cases f with
  | text s => exact splitSepAux_quoted sep ke s rest acc
  | num s =>
    apply splitSepAux_plain
    intro c hc
    have hp : isPlainChar c = true := by
      simp only [CsvField.isPlain, List.all_eq_true] at hf
      exact hf c hc
    have h3 := (isPlainChar_spec c).mp hp
    rcases hsep with h | h <;> subst h
    · exact ⟨h3.2.1, h3.1⟩
    · exact ⟨h3.2.1, h3.2.2⟩

/-- A whole rendered record moves into the accumulator when splitting at
newlines: its commas are quoted or plain field separators, never cuts. -/
theorem splitSepAux_record (ke : Bool) (r : List CsvField)
    (hr : ∀ f ∈ r, f.isPlain = true) :
    ∀ (rest acc : List Char),
      splitSepAux '\n' ke (renderRecord r ++ rest) false acc =
        splitSepAux '\n' ke rest false ((renderRecord r).reverse ++ acc) := by
  induction r with
  | nil => intro rest acc; simp [renderRecord]
  | cons f fs ih =>
    intro rest acc
    cases fs with
    | nil =>
      rw [show renderRecord [f] = f.render from rfl]
      exact splitSepAux_field '\n' ke f rest acc (hr f (List.mem_cons_self f [])) (Or.inr rfl)
    | cons g t =>
      rw [show renderRecord (f :: g :: t) = f.render ++ ',' :: renderRecord (g :: t) from rfl]
      rw [List.append_assoc, List.cons_append,
        splitSepAux_field '\n' ke f _ acc (hr f (List.mem_cons_self f (g :: t))) (Or.inr rfl)]
      rw [splitSepAux_other '\n' ke ',' _ false _ (by decide) (by simp)]
      rw [ih (fun f' h' => hr f' (List.mem_cons_of_mem f h'))]
      congr 1
      simp

/-- Splitting the written file at newlines recovers the rendered records. -/
theorem splitLines_writeCsv (rows : List (List CsvField))
    (h : ∀ r ∈ rows, ∀ f ∈ r, f.isPlain = true) :
    splitLines (writeCsv rows) = rows.map renderRecord := by
  induction rows with
  | nil => rfl
  | cons r rs ih =>
    show splitSepAux '\n' false (renderRecord r ++ '\n' :: writeCsv rs) false [] = _
    rw [splitSepAux_record false r (h r (List.mem_cons_self r rs))]
    rw [splitSepAux_sep '\n' (by decide)]
    rw [show splitSepAux '\n' false (writeCsv rs) false [] =
      splitLines (writeCsv rs) from rfl]
    rw [ih (fun r' h' => h r' (List.mem_cons_of_mem r h'))]
    simp

/-- Splitting a rendered record at commas recovers the rendered cells. -/
theorem splitFields_renderRecord (r : List CsvField) (hne : r ≠ [])
    (hr : ∀ f ∈ r, f.isPlain = true) :
    splitFields (renderRecord r) = r.map CsvField.render := by
  induction r with
  | nil => exact absurd rfl hne
  | cons f fs ih =>
    cases fs with
    | nil =>
      show splitSepAux ',' true (renderRecord [f]) false [] = _
      rw [show renderRecord [f] = f.render from rfl]
      have h1 := splitSepAux_field ',' true f [] []
        (hr f (List.mem_cons_self f [])) (Or.inl rfl)
      rw [List.append_nil] at h1
      rw [h1, splitSepAux_nil]
      simp
    | cons g t =>
      show splitSepAux ',' true (renderRecord (f :: g :: t)) false [] = _
      rw [show renderRecord (f :: g :: t) = f.render ++ ',' :: renderRecord (g :: t) from rfl]
      rw [splitSepAux_field ',' true f _ [] (hr f (List.mem_cons_self f (g :: t))) (Or.inl rfl)]
      rw [splitSepAux_sep ',' (by decide)]
      rw [show splitSepAux ',' true (renderRecord (g :: t)) false [] =
        splitFields (renderRecord (g :: t)) from rfl]
      rw [ih (by simp) (fun f' h' => hr f' (List.mem_cons_of_mem f h'))]
      simp

/-- Unescaping undoes the writer's quote doubling. -/
theorem unescQuote_escQuote (s : List Char) :
    ∀ r : List Char, unescQuote (escQuote s ++ r) = s ++ unescQuote r := by
  induction s with
  | nil => intro r; simp [escQuote]
  | cons c t ih =>
    intro r
    by_cases hc : c = '"'
    · subst hc
      rw [show escQuote ('"' :: t) = '"' :: '"' :: escQuote t from by simp [escQuote]]
      rw [List.cons_append, List.cons_append, unescQuote_pair]
      rw [ih]
      rfl
    · rw [show escQuote (c :: t) = c :: escQuote t from by simp [escQuote, hc]]
      rw [List.cons_append, unescQuote_cons_ne c _ hc]
      rw [ih]
      rfl

/-- Reading back a rendered text cell recovers its content. -/
theorem unquoteField_text (s : List Char) :
    unquoteField (CsvField.render (CsvField.text s)) = s := by
  show unquoteField ('"' :: (escQuote s ++ ['"'])) = s
  rw [unquoteField, if_pos]
  · show unescQuote (escQuote s ++ ['"'] : List Char).dropLast = s
    rw [List.dropLast_concat]
    have h := unescQuote_escQuote s []
    rw [List.append_nil, show unescQuote ([] : List Char) = [] from rfl,
      List.append_nil] at h
    exact h
  · refine ⟨by simp, rfl, ?_⟩
    rw [show ('"' :: (escQuote s ++ ['"']) : List Char) = ('"' :: escQuote s) ++ ['"'] from by
      simp]
    exact List.getLast?_concat _

/-- Reading back a plain cell leaves it untouched. -/
theorem unquoteField_plain (s : List Char) (h : ∀ c ∈ s, isPlainChar c = true) :
    unquoteField s = s := by
  cases s with
  | nil => rfl
  | cons c t =>
    have hc : c ≠ '"' := ((isPlainChar_spec c).mp (h c (List.mem_cons_self c t))).2.1
    rw [unquoteField, if_neg]
    rintro ⟨-, h2, -⟩
    simp only [List.head?_cons, Option.some.injEq] at h2
    exact hc h2

/-- Round trip: parsing a written file recovers every record's cell
contents, free-text commas, quotes and newlines included. -/
theorem parseCsv_writeCsv (rows : List (List CsvField))
    (h1 : ∀ r ∈ rows, r ≠ []) (h2 : ∀ r ∈ rows, ∀ f ∈ r, f.isPlain = true) :
    parseCsv (writeCsv rows) = rows.map (fun r => r.map CsvField.content) := by
  unfold parseCsv
  rw [splitLines_writeCsv rows h2, List.map_map]
  apply List.map_congr_left
  intro r hr
  show (splitFields (renderRecord r)).map unquoteField = _
  rw [splitFields_renderRecord r (h1 r hr) (h2 r hr), List.map_map]
  apply List.map_congr_left
  intro f hf
  have hp := h2 r hr f hf
  show unquoteField f.render = f.content
  cases f with
  | text s => exact unquoteField_text s
  | num s =>
    show unquoteField s = s
    apply unquoteField_plain
    intro c hc
    simp only [CsvField.isPlain, List.all_eq_true] at hp
    exact hp c hc

/-- cols_order (app.py lines 142 and 170): the fixed feedback-log
column order. -/
def colsOrder : List (List Char) :=
  ["Timestamp".toList, "User".toList, "Income".toList, "Loan_Amount".toList,
   "Prediction".toList, "Model_Accuracy".toList, "Rating".toList,
   "Accuracy_Opinion".toList, "Suggestions".toList]

/-- The header row: pandas writes the column names as quoted strings
under QUOTE_NONNUMERIC. -/
def headerRecord : List CsvField := colsOrder.map CsvField.text

/-- Decimal digit character. -/
def digitChar (n : ℕ) : Char := Char.ofNat (48 + n)

/-- Decimal rendering of a natural number. -/
def renderNat (n : ℕ) : List Char :=
  if _h : n < 10 then [digitChar n] else renderNat (n / 10) ++ [digitChar (n % 10)]
decreasing_by exact Nat.div_lt_self (by omega) (by omega)

/-- Decimal rendering of an integer. -/
def renderInt (i : ℤ) : List Char :=
  if i < 0 then '-' :: renderNat i.natAbs else renderNat i.natAbs

/-- Two-digit zero-padded rendering of a value below 100. -/
def pad2 (m : ℕ) : List Char := if m < 10 then '0' :: [digitChar m] else renderNat m

/-- Rendering of the two-decimal confidence percentage, stored in
hundredths (round(confidence*100, 2) of app.py line 102). -/
def renderAcc (n : ℤ) : List Char := renderInt (n / 100) ++ '.' :: pad2 (n.natAbs % 100)

theorem digitChar_plain (k : ℕ) (h : k < 10) : isPlainChar (digitChar k) = true := by
  interval_cases k <;> decide

theorem renderNat_plain (n : ℕ) : ∀ c ∈ renderNat n, isPlainChar c = true := by
  induction n using Nat.strong_induction_on with
  | _ n ih =>
    unfold renderNat
    split
    next h =>
      intro c hc
      rw [List.mem_singleton] at hc
      subst hc
      exact digitChar_plain n h
    next h =>
      intro c hc
      rw [List.mem_append] at hc
      rcases hc with hc | hc
      · exact ih (n / 10) (Nat.div_lt_self (by omega) (by omega)) c hc
      · rw [List.mem_singleton] at hc
        subst hc
        exact digitChar_plain _ (Nat.mod_lt _ (by omega))

theorem renderInt_plain (i : ℤ) : ∀ c ∈ renderInt i, isPlainChar c = true := by
  unfold renderInt
  split
  · intro c hc
    rcases List.mem_cons.mp hc with rfl | hc
    · decide
    · exact renderNat_plain _ c hc
  · exact renderNat_plain _

theorem pad2_plain (m : ℕ) : ∀ c ∈ pad2 m, isPlainChar c = true := by
  unfold pad2
  split
  next h =>
    intro c hc
    rcases List.mem_cons.mp hc with rfl | hc
    · decide
    · rw [List.mem_singleton] at hc
      subst hc
      exact digitChar_plain m h
  next h => exact renderNat_plain m

theorem renderAcc_plain (n : ℤ) : ∀ c ∈ renderAcc n, isPlainChar c = true := by
  intro c hc
  rw [renderAcc, List.mem_append] at hc
  rcases hc with hc | hc
  · exact renderInt_plain _ c hc
  · rcases List.mem_cons.mp hc with rfl | hc
    · decide
    · exact pad2_plain _ c hc

/-- One feedback record (the dictionary of app.py lines 129-139):
strings for the text fields, integers for income, loan amount and
rating, and the confidence percentage stored in hundredths. -/
structure FeedbackEntry where
  timestamp : List Char
  user : List Char
  income : ℤ
  loanAmount : ℤ
  prediction : List Char
  modelAccuracy : ℤ
  rating : ℕ
  accuracyOpinion : List Char
  suggestions : List Char

/-- The entry's CSV record in cols_order (app.py line 144): text cells
quoted, numeric cells rendered bare. -/
def entryRecord (e : FeedbackEntry) : List CsvField :=
  [CsvField.text e.timestamp, CsvField.text e.user,
   CsvField.num (renderInt e.income), CsvField.num (renderInt e.loanAmount),
   CsvField.text e.prediction, CsvField.num (renderAcc e.modelAccuracy),
   CsvField.num (renderNat e.rating), CsvField.text e.accuracyOpinion,
   CsvField.text e.suggestions]

/-- The cell values a reader recovers for an entry. -/
def entryCells (e : FeedbackEntry) : List (List Char) :=
  (entryRecord e).map CsvField.content

/-- The feedback submit handler (app.py lines 146-149): if the log file
does not exist, write header plus the one row; otherwise append the one
row with header=False. -/
def appendCsv : Option (List Char) → FeedbackEntry → List Char
  | none, e => writeCsv [headerRecord, entryRecord e]
  | some s, e => s ++ writeCsv [entryRecord e]

/-- The admin Save path (app.py line 177): rewrite the whole file as
header plus all rows. -/
def rewriteLog (es : List FeedbackEntry) : List Char :=
  writeCsv (headerRecord :: es.map entryRecord)

/-- df_admin.reindex(columns=cols_order) (app.py line 171) on one row:
pick each expected column's value by header name, empty when absent. -/
def alignRow (h : List (List Char)) (r : List (List Char)) : List (List Char) :=
  colsOrder.map (fun c => (List.lookup c (h.zip r)).getD [])

/-- pd.read_csv(engine='python', on_bad_lines='skip') followed by the
column reindex (app.py lines 169-171): the first record is the header,
rows with more fields than the header are skipped as bad lines, and the
surviving rows are aligned to cols_order. -/
def readAll (content : List Char) : List (List (List Char)) :=
  match parseCsv content with
  | [] => []
  | h :: rows => (rows.filter (fun r => decide (r.length ≤ h.length))).map (alignRow h)

/-- len(df_admin) (app.py line 173): the entry count shown to the admin. -/
def totalEntries (content : List Char) : ℕ := (readAll content).length

theorem entryRecord_ne_nil (e : FeedbackEntry) : entryRecord e ≠ [] := by
  simp [entryRecord]

theorem entryRecord_plain (e : FeedbackEntry) :
    ∀ f ∈ entryRecord e, f.isPlain = true := by
  intro f hf
  simp only [entryRecord, List.mem_cons, List.not_mem_nil, or_false] at hf
  rcases hf with rfl | rfl | rfl | rfl | rfl | rfl | rfl | rfl | rfl
  · rfl
  · rfl
  · simp only [CsvField.isPlain, List.all_eq_true]
    exact renderInt_plain _
  · simp only [CsvField.isPlain, List.all_eq_true]
    exact renderInt_plain _
  · rfl
  · simp only [CsvField.isPlain, List.all_eq_true]
    exact renderAcc_plain _
  · simp only [CsvField.isPlain, List.all_eq_true]
    exact renderNat_plain _
  · rfl
  · rfl

theorem headerRecord_plain : ∀ f ∈ headerRecord, f.isPlain = true := by decide

theorem entryCells_length (e : FeedbackEntry) : (entryCells e).length = 9 := rfl

/-- Aligning a nine-cell row to the nine expected columns under the
written header is the identity. -/
theorem alignRow_id (cs : List (List Char)) (h : cs.length = 9) :
    alignRow colsOrder cs = cs := by
  cases cs with
  | nil => simp at h
  | cons c1 cs =>
  cases cs with
  | nil => simp at h
  | cons c2 cs =>
  cases cs with
  | nil => simp at h
  | cons c3 cs =>
  cases cs with
  | nil => simp at h
  | cons c4 cs =>
  cases cs with
  | nil => simp at h
  | cons c5 cs =>
  cases cs with
  | nil => simp at h
  | cons c6 cs =>
  cases cs with
  | nil => simp at h
  | cons c7 cs =>
  cases cs with
  | nil => simp at h
  | cons c8 cs =>
  cases cs with
  | nil => simp at h
  | cons c9 cs =>
  cases cs with
  | nil => rfl
  | cons c10 cs => simp at h

theorem writeCsv_append (a b : List (List CsvField)) :
    writeCsv (a ++ b) = writeCsv a ++ writeCsv b := by
  induction a with
  | nil => rfl
  | cons r rs ih =>
    show renderRecord r ++ '\n' :: writeCsv (rs ++ b) = _
    rw [ih]
    simp [writeCsv]

/-- Reading back a rewritten log recovers exactly the entries' cells. -/
theorem readAll_rewriteLog (es : List FeedbackEntry) :
    readAll (rewriteLog es) = es.map entryCells := by
  have hp := parseCsv_writeCsv (headerRecord :: es.map entryRecord)
    (by
      intro r hr
      rcases List.mem_cons.mp hr with rfl | hr
      · decide
      · obtain ⟨e, -, rfl⟩ := List.mem_map.mp hr
        exact entryRecord_ne_nil e)
    (by
      intro r hr
      rcases List.mem_cons.mp hr with rfl | hr
      · exact headerRecord_plain
      · obtain ⟨e, -, rfl⟩ := List.mem_map.mp hr
        exact entryRecord_plain e)
  unfold rewriteLog readAll
  rw [hp]
  simp only [List.map_cons, List.map_map]
  rw [show headerRecord.map CsvField.content = colsOrder from rfl]
  rw [List.filter_eq_self.mpr ?keep]
  case keep =>
    intro x hx
    obtain ⟨e, -, rfl⟩ := List.mem_map.mp hx
    simp [entryRecord, colsOrder]
  rw [List.map_map]
  apply List.map_congr_left
  intro e _
  exact alignRow_id (entryCells e) (entryCells_length e)

/-- C5: the submit handler's append: with no file it writes header plus
exactly the one entry row in cols_order; with an existing file it writes
the existing bytes unchanged followed by exactly the one entry row and
no header, so appending to a written log equals rewriting the extended
entry list, and the read-back gains exactly the one entry — whatever
commas, quotes or newlines the suggestion text carries. -/
theorem c5_append_one_row (e : FeedbackEntry) (ps : List FeedbackEntry) :
    appendCsv none e = writeCsv [headerRecord, entryRecord e] ∧
    parseCsv (appendCsv none e) = [colsOrder, entryCells e] ∧
    readAll (appendCsv none e) = [entryCells e] ∧
    (∀ s : List Char, appendCsv (some s) e = s ++ writeCsv [entryRecord e]) ∧
    appendCsv (some (rewriteLog ps)) e = rewriteLog (ps ++ [e]) ∧
    readAll (appendCsv (some (rewriteLog ps)) e) =
      ps.map entryCells ++ [entryCells e] := by
  have happ : appendCsv (some (rewriteLog ps)) e = rewriteLog (ps ++ [e]) := by
    show rewriteLog ps ++ writeCsv [entryRecord e] = _
    unfold rewriteLog
    rw [← writeCsv_append]
    simp
  have hnone : appendCsv none e = rewriteLog [e] := rfl
  refine ⟨rfl, ?_, ?_, fun s => rfl, happ, ?_⟩
  · have hp := parseCsv_writeCsv [headerRecord, entryRecord e]
      (by
        intro r hr
        simp only [List.mem_cons, List.not_mem_nil, or_false] at hr
        rcases hr with rfl | rfl
        · decide
        · exact entryRecord_ne_nil e)
      (by
        intro r hr
        simp only [List.mem_cons, List.not_mem_nil, or_false] at hr
        rcases hr with rfl | rfl
        · exact headerRecord_plain
        · exact entryRecord_plain e)
    rw [show appendCsv none e = writeCsv [headerRecord, entryRecord e] from rfl, hp]
    rfl
  · rw [hnone, readAll_rewriteLog]
    rfl
  · rw [happ, readAll_rewriteLog]
    simp

/-- C6: admin Save (full rewrite) followed by the admin read returns
exactly the saved entry sequence — as cell values, i.e. modulo the
documented quoting and numeric formatting normalization — and the
reported count matches. -/
theorem c6_rewrite_roundtrip (es : List FeedbackEntry) :
    readAll (rewriteLog es) = es.map entryCells ∧
    totalEntries (rewriteLog es) = es.length := by
  refine ⟨readAll_rewriteLog es, ?_⟩
  rw [totalEntries, readAll_rewriteLog es, List.length_map]

/-- In-order survival of well-formed rows: the nine-field rows, aligned
to themselves, form a sublist of everything the tolerant read keeps. -/
theorem filter_nine_sublist (rs : List (List CsvField)) :
    List.Sublist
      ((rs.filter (fun r => decide (r.length = 9))).map (fun r => r.map CsvField.content))
      ((rs.filter (fun r => decide (r.length ≤ 9))).map
        (fun r => alignRow colsOrder (r.map CsvField.content))) := by
  induction rs with
  | nil => simp
  | cons r t ih =>
    rw [List.filter_cons, List.filter_cons]
    by_cases h9 : r.length = 9
    · have hle : r.length ≤ 9 := by omega
      rw [if_pos (by simp [h9]), if_pos (by simp [hle])]
      simp only [List.map_cons]
      rw [alignRow_id (r.map CsvField.content) (by simpa using h9)]
      exact List.Sublist.cons₂ _ ih
    · by_cases hle : r.length ≤ 9
      · rw [if_neg (by simp [h9]), if_pos (by simp [hle])]
        simp only [List.map_cons]
        exact List.Sublist.cons _ ih
      · rw [if_neg (by simp [h9]), if_neg (by simp [hle])]
        exact ih

/-- C7: reading a written log whose data rows have arbitrary field
counts never fails: the rows with more fields than the header (the
python engine's bad lines) are skipped, every row with the well-formed
nine fields survives in order, and the count shown to the admin is the
number of rows kept. -/
theorem c7_bad_lines_skipped (rows : List (List CsvField))
    (h1 : ∀ r ∈ rows, r ≠ []) (h2 : ∀ r ∈ rows, ∀ f ∈ r, f.isPlain = true) :
    readAll (writeCsv (headerRecord :: rows)) =
      (rows.filter (fun r => decide (r.length ≤ 9))).map
        (fun r => alignRow colsOrder (r.map CsvField.content)) ∧
    totalEntries (writeCsv (headerRecord :: rows)) =
      (rows.filter (fun r => decide (r.length ≤ 9))).length ∧
    List.Sublist
      ((rows.filter (fun r => decide (r.length = 9))).map (fun r => r.map CsvField.content))
      (readAll (writeCsv (headerRecord :: rows))) := by
  have hp := parseCsv_writeCsv (headerRecord :: rows)
    (by
      intro r hr
      rcases List.mem_cons.mp hr with rfl | hr
      · decide
      · exact h1 r hr)
    (by
      intro r hr
      rcases List.mem_cons.mp hr with rfl | hr
      · exact headerRecord_plain
      · exact h2 r hr)
  have hchar : readAll (writeCsv (headerRecord :: rows)) =
      (rows.filter (fun r => decide (r.length ≤ 9))).map
        (fun r => alignRow colsOrder (r.map CsvField.content)) := by
    unfold readAll
    rw [hp]
    simp only [List.map_cons]
    rw [show headerRecord.map CsvField.content = colsOrder from rfl]
    rw [List.filter_map]
    have hfc : rows.filter ((fun r => decide (r.length ≤ colsOrder.length)) ∘
        fun r => r.map CsvField.content) = rows.filter (fun r => decide (r.length ≤ 9)) := by
      apply List.filter_congr
      intro r _
      show decide ((r.map CsvField.content).length ≤ colsOrder.length) = decide (r.length ≤ 9)
      rw [List.length_map, show colsOrder.length = 9 from rfl]
    rw [hfc, List.map_map]
    rfl
  refine ⟨hchar, ?_, ?_⟩
  · rw [totalEntries, hchar, List.length_map]
  · rw [hchar]
    exact filter_nine_sublist rows

/-- A well-formed nine-field demo row. -/
def wGood : List CsvField := List.replicate 9 (CsvField.num ['7'])

/-- A malformed twelve-field demo row. -/
def wBad : List CsvField := List.replicate 12 (CsvField.num ['8'])

/-- Witness for C7 on a concrete log holding good, bad, good rows: the
bad row is skipped, both good rows survive in order, and the reported
count is 2. -/
theorem c7_bad_lines_skipped_witness :
    readAll (writeCsv (headerRecord :: [wGood, wBad, wGood])) =
      [List.replicate 9 ['7'], List.replicate 9 ['7']] ∧
    totalEntries (writeCsv (headerRecord :: [wGood, wBad, wGood])) = 2 := by
  have h := c7_bad_lines_skipped [wGood, wBad, wGood] (by decide) (by decide)
  constructor
  · rw [h.1]
    decide
  · rw [h.2.1]
    decide

/-- Python's default whitespace set for str.strip (ASCII part). -/
def isPySpace (c : Char) : Bool :=
  (c == ' ') || (c == '\t') || (c == '\n') || (c == '\r') ||
    (c == Char.ofNat 11) || (c == Char.ofNat 12)

/-- Python str.strip(): drop whitespace from both ends. -/
def pyStrip (s : String) : String :=
  String.mk (((s.toList.dropWhile isPySpace).reverse.dropWhile isPySpace).reverse)

/-- "APPROVED ✅" (app.py line 104). -/
def approvedText : String := "APPROVED ✅"

/-- "REJECTED ❌" (app.py line 104). -/
def rejectedText : String := "REJECTED ❌"

/-- What the ANALYZE ELIGIBILITY handler renders: the validation error of
line 76, or the verdict plus confidence percentage of lines 104-108. -/
inductive AnalyzeResult
  | nameError
  | predicted (resText : String) (dynamicAcc : ℝ)

/-- st.session_state['user_data'] (app.py lines 112-117). -/
structure StoredSession where
  name : String
  income : ℚ
  loan : ℚ
  conf : ℝ

/-- Python round(x, 2) up to tie-breaking. -/
noncomputable def round2dec (x : ℝ) : ℝ := ((round (x * 100) : ℤ) : ℝ) / 100

/-- The ANALYZE ELIGIBILITY click handler (app.py lines 74-117): an
empty-after-strip name short-circuits to the error with nothing stored;
otherwise the reindexed row is scored by the model and the verdict and
session data are produced. -/
noncomputable def analyze (m : SkModel) (cols : List String) (a : ApplicantInput) :
    AnalyzeResult × Option StoredSession :=
  if pyStrip a.userName = "" then (AnalyzeResult.nameError, none)
  else
    let df := inputDf a cols
    let conf := confidence m df
    let acc := round2dec (conf * 100)
    (AnalyzeResult.predicted
      (if m.predict df = 1 then approvedText else rejectedText) acc,
      some ⟨a.userName, a.income, a.loanPkr, acc⟩)

/-- C8: a whitespace-only name is rejected with the validation error, no
session result is stored, and the outcome is the same whatever model and
schema are loaded — the model adapter is never consulted. -/
theorem c8_empty_name_rejected (m m' : SkModel) (cols cols' : List String)
    (a : ApplicantInput) (h : pyStrip a.userName = "") :
    (analyze m cols a).1 = AnalyzeResult.nameError ∧
    (analyze m cols a).2 = none ∧
    analyze m cols a = analyze m' cols' a := by
  unfold analyze
  rw [if_pos h, if_pos h]
  exact ⟨rfl, rfl, rfl⟩

/-- A concrete model for the witnesses: class 1 with fixed probabilities. -/
noncomputable def constModel : SkModel :=
  { predict := fun _ => 1, proba := fun _ => ((3 : ℝ) / 10, (7 : ℝ) / 10) }

/-- Witness for C8: the scenario input with the name "   " (spaces only)
is rejected and stores nothing, under two different models. -/
theorem c8_empty_name_rejected_witness :
    (analyze constModel inputCols { demoInput with userName := "   " }).1 =
      AnalyzeResult.nameError ∧
    (analyze constModel inputCols { demoInput with userName := "   " }).2 = none ∧
    analyze constModel inputCols { demoInput with userName := "   " } =
      analyze demoModel [] { demoInput with userName := "   " } := by
  exact c8_empty_name_rejected constModel demoModel inputCols []
    { demoInput with userName := "   " } (by decide)

/-- real_password (app.py lines 158-161): the configured secret, falling
back to "admin123" when the secrets store has none. -/
def realPassword (secretAdminPassword : Option String) : String :=
  secretAdminPassword.getD "admin123"

/-- The only sidebar message the password branch can produce
(app.py line 166); the code has no else branch, hence no failure
message of any kind. -/
inductive AdminMsg | welcomeAdmin
  deriving DecidableEq

/-- Outcome of one password attempt (app.py lines 163-166): whether the
admin view unlocks, and which sidebar message appears. -/
structure AdminOutcome where
  unlocked : Bool
  message : Option AdminMsg
  deriving DecidableEq

/-- `if pass_input == real_password:` (app.py line 165) — matching input
unlocks and greets; any other input leaves the sidebar untouched. -/
def adminStep (realPw input : String) : AdminOutcome :=
  if input = realPw then ⟨true, some AdminMsg.welcomeAdmin⟩ else ⟨false, none⟩

/-- Counterexample to C9: the non-empty wrong password "wrongpass"
produces no message at all — in particular no "incorrect password"
error signal — while the console stays locked. -/
theorem c9_no_error_counterexample :
    ("wrongpass" ≠ "" ∧ "wrongpass" ≠ realPassword none) ∧
    (adminStep (realPassword none) "wrongpass").message = none ∧
    (adminStep (realPassword none) "wrongpass").unlocked = false := by
  refine ⟨⟨by decide, by decide⟩, ?_, ?_⟩ <;> rfl

/-- C9 (amended): a non-matching password attempt — empty or not —
yields no message and the console stays locked; the unlocked state, with
its welcome message, is reached exactly when the input equals the
configured secret (default "admin123"). -/
theorem c9_password_gate (secretAdminPassword : Option String) (input : String) :
    ((adminStep (realPassword secretAdminPassword) input).unlocked = true ↔
      input = realPassword secretAdminPassword) ∧
    (input ≠ realPassword secretAdminPassword →
      adminStep (realPassword secretAdminPassword) input = ⟨false, none⟩) ∧
    (input = realPassword secretAdminPassword →
      adminStep (realPassword secretAdminPassword) input =
        ⟨true, some AdminMsg.welcomeAdmin⟩) := by
  refine ⟨?_, ?_, ?_⟩
  · unfold adminStep
    split
    next h => simpa using h
    next h => simpa using h
  · intro h
    unfold adminStep
    rw [if_neg h]
  · intro h
    unfold adminStep
    rw [if_pos h]

/-- Witness for C9: with no configured secret, "admin123" unlocks with
the welcome message and "letmein" silently stays locked. -/
theorem c9_password_gate_witness :
    adminStep (realPassword none) "admin123" = ⟨true, some AdminMsg.welcomeAdmin⟩ ∧
    adminStep (realPassword none) "letmein" = ⟨false, none⟩ := by
  exact ⟨(c9_password_gate none "admin123").2.2 (by decide),
    (c9_password_gate none "letmein").2.1 (by decide)⟩

end LoanApp
